import Mathlib

/-!
Verification development for the ascii-3d renderer (src/geometry.py and
src/renderer.py).

Modelling conventions:
- Python floats are idealised as exact rationals (`ℚ`) throughout the
  tessellation / projection / rasterization pipeline, and as reals (`ℝ`)
  for the trigonometric rotation code.
- numpy 3-arrays become the `Vec3` structure; `Vertex` carries the array
  `v` and the integer `color` tag, as in `geometry.py`.
- Python exceptions become `Except String` results; a Python `IndexError`
  on string indexing becomes `Option.none` (see `pythonGet`).
- Mutable buffers (`Scene.depth_buffer`, `Scene.color_buffer`) become the
  explicit `SceneState` record; in-place updates become `List.set`.
- The `while t <= 1: ...; t += interval` loop of `generate_edges`
  terminates only for positive `interval` (rational accumulation is
  exact), so its embedding `lerpTs` carries the hypothesis `0 < interval`;
  the guard of lines 103-104 / 127-128 is modelled separately by
  `edgesIntervalCheck` / `surfacesIntervalCheck`.
-/

/-- A 3-component vector, modelling the numpy array stored in `Vertex.v`. -/
structure Vec3 (α : Type) where
  x : α
  y : α
  z : α
deriving DecidableEq

/-- Componentwise numpy array addition. -/
def Vec3.add [Add α] (a b : Vec3 α) : Vec3 α :=
  ⟨a.x + b.x, a.y + b.y, a.z + b.z⟩

/-- Componentwise numpy array subtraction. -/
def Vec3.sub [Sub α] (a b : Vec3 α) : Vec3 α :=
  ⟨a.x - b.x, a.y - b.y, a.z - b.z⟩

/-- numpy array-times-scalar `v * t`. -/
def Vec3.smul [Mul α] (a : Vec3 α) (t : α) : Vec3 α :=
  ⟨a.x * t, a.y * t, a.z * t⟩

/-- Dot product of two 3-vectors (one row of `np.matmul`). -/
def Vec3.dot [Mul α] [Add α] (a b : Vec3 α) : α :=
  a.x * b.x + a.y * b.y + a.z * b.z

/-- `class Vertex` of geometry.py: a 3D position `v` plus a `color` tag
(Python default 0). -/
structure Vertex (α : Type) where
  v : Vec3 α
  color : ℤ
deriving DecidableEq

/-- `Vertex.from_ndarray` (geometry.py lines 80-84): builds
`Vertex(v[0], v[1], v[2])`, so the color tag takes its default value 0.
The length-3 validation of the Python code is enforced by the `Vec3` type. -/
def Vertex.from_ndarray (v : Vec3 α) : Vertex α :=
  ⟨v, 0⟩

/-- `Vertex.lerp` (geometry.py lines 57-63):
`from_ndarray((v0.v * t) + (v1.v * (1 - t)))`. -/
def Vertex.lerp (v0 v1 : Vertex ℚ) (t : ℚ) : Vertex ℚ :=
  Vertex.from_ndarray ((v0.v.smul t).add (v1.v.smul (1 - t)))

/-- `np.isclose(a, b)` with the numpy defaults
`rtol = 1e-05`, `atol = 1e-08`: `|a - b| <= atol + rtol * |b|`. -/
def isclose (a b : ℚ) : Bool :=
  decide (|a - b| ≤ 1 / 100000000 + (1 / 100000) * |b|)

/-- `Vertex.lerp_gen` (geometry.py lines 65-78): validates that the
coefficients sum to 1 (within `np.isclose` tolerance) and that the two
lists have equal length, then accumulates `new_v += vtx.v * coeff` over
the zipped lists starting from the zero vector, returning the result via
`from_ndarray`. -/
def Vertex.lerp_gen (vertices : List (Vertex ℚ)) (coeffs : List ℚ) :
    Except String (Vertex ℚ) :=
  if !(isclose coeffs.sum 1) then
    .error "Cannot lerp_gen when sum of coefficients is not 1."
  else if coeffs.length ≠ vertices.length then
    .error "Coeff length does not match vertices length."
  else
    .ok (Vertex.from_ndarray
      ((vertices.zip coeffs).foldl
        (fun acc vc => acc.add (vc.1.v.smul vc.2)) ⟨0, 0, 0⟩))

/-- The rotation matrix rows of `Vertex.rotate` / `Vertex.rotate_about_origin`
(geometry.py lines 22-33 and 44-54), built from the cached cosines and
sines of the three axis angles. -/
noncomputable def rotationRows (alpha beta gamma : ℝ) : Vec3 (Vec3 ℝ) :=
  let cA := Real.cos alpha
  let sA := Real.sin alpha
  let cB := Real.cos beta
  let sB := Real.sin beta
  let cG := Real.cos gamma
  let sG := Real.sin gamma
  ⟨⟨cB * cG, sA * sB * cG - cA * sG, cA * sB * cG + sA * sG⟩,
   ⟨cB * sG, sA * sB * sG + cA * cG, cA * sB * sG - sA * cG⟩,
   ⟨-sB, sA * cB, cA * cB⟩⟩

/-- `np.matmul(R, v)` for a 3x3 matrix given as three rows. -/
def matVec (R : Vec3 (Vec3 ℝ)) (v : Vec3 ℝ) : Vec3 ℝ :=
  ⟨R.x.dot v, R.y.dot v, R.z.dot v⟩

/-- `Vertex.rotate` (geometry.py lines 14-34):
`from_ndarray(np.matmul(R, vtx.v))`. -/
noncomputable def Vertex.rotate (vtx : Vertex ℝ) (alpha beta gamma : ℝ) :
    Vertex ℝ :=
  Vertex.from_ndarray (matVec (rotationRows alpha beta gamma) vtx.v)

/-- `Vertex.rotate_about_origin` (geometry.py lines 36-55):
`from_ndarray(np.matmul(R, vtx.v - origin.v) + origin.v)`. -/
noncomputable def Vertex.rotate_about_origin (vtx origin : Vertex ℝ)
    (alpha beta gamma : ℝ) : Vertex ℝ :=
  Vertex.from_ndarray
    ((matVec (rotationRows alpha beta gamma) (vtx.v.sub origin.v)).add origin.v)

/-- `class Geometry` of geometry.py: an ordered list of control vertices,
an origin (pivot; the Python constructor defaults it to the first vertex
and validates that at least 2 vertices are given), and a color tag. -/
structure Geometry (α : Type) where
  vertices : List (Vertex α)
  origin : Vertex α
  color : ℤ

/-- `Geometry.rotate` (geometry.py lines 155-160): replaces every stored
vertex by `Vertex.rotate_about_origin(vertex, origin, alpha, beta, gamma)`. -/
noncomputable def Geometry.rotate (g : Geometry ℝ) (alpha beta gamma : ℝ) :
    Geometry ℝ :=
  { g with vertices :=
      g.vertices.map fun vtx =>
        Vertex.rotate_about_origin vtx g.origin alpha beta gamma }

/-- One step of the pair-deduplication of `generate_edges` (geometry.py
lines 107-111): skip when `i == j or (i, j) in pairs or (j, i) in pairs`,
otherwise append `(i, j)` to `pairs`. -/
def pairStep (i : ℕ) (acc : List (ℕ × ℕ)) (j : ℕ) : List (ℕ × ℕ) :=
  if i = j ∨ (i, j) ∈ acc ∨ (j, i) ∈ acc then acc else acc ++ [(i, j)]

/-- The full double loop `for i in range(n): for j in range(n): ...` of
`generate_edges`, collecting the `pairs` list it builds. -/
def genPairs (n : ℕ) : List (ℕ × ℕ) :=
  (List.range n).foldl (fun acc i => (List.range n).foldl (pairStep i) acc) []

/-- The parameter sweep `t = 0; while t <= 1: emit t; t += interval` of
`generate_edges` (geometry.py lines 114-119).  Rational accumulation is
exact, so the loop terminates exactly when `interval` is positive; the
hypothesis records that (at `interval = 0` the Python loop never ends). -/
def lerpTs (interval : ℚ) (hpos : 0 < interval) (t : ℚ) : List ℚ :=
  if ht : t ≤ 1 then t :: lerpTs interval hpos (t + interval) else []
termination_by (⌈(1 - t) / interval⌉ + 1).toNat
decreasing_by
  have hne : interval ≠ 0 := ne_of_gt hpos
  have hstep : (1 - (t + interval)) / interval = (1 - t) / interval - 1 := by
    field_simp
    ring
  have hnn : (0 : ℚ) ≤ (1 - t) / interval :=
    div_nonneg (by linarith) (le_of_lt hpos)
  have hceil : (0 : ℤ) ≤ ⌈(1 - t) / interval⌉ := Int.ceil_nonneg hnn
  rw [hstep, Int.ceil_sub_one]
  omega

/-- The interval guard of `Geometry.generate_edges` (geometry.py lines
103-104): `interval < 0 or interval > 1` raises `ValueError`. -/
def edgesIntervalCheck (interval : ℚ) : Bool :=
  decide (interval < 0) || decide (interval > 1)

/-- The interval guard of `Geometry.generate_surfaces` (geometry.py lines
127-128), textually identical to the one of `generate_edges`. -/
def surfacesIntervalCheck (interval : ℚ) : Bool :=
  decide (interval < 0) || decide (interval > 1)

/-- `Geometry.generate_edges` (geometry.py lines 99-120): after the
interval guard, for each deduplicated index pair emit one `lerp` sample
per parameter step, overwriting the sample's color with the geometry's
color (`v.color = self.color`). -/
def Geometry.generate_edges (g : Geometry ℚ) (interval : ℚ)
    (hpos : 0 < interval) : Except String (List (Vertex ℚ)) :=
  if edgesIntervalCheck interval then
    .error "Invalid interval (Expected 0 <= interval <= 1)."
  else
    .ok ((genPairs g.vertices.length).flatMap fun p =>
      (lerpTs interval hpos 0).map fun t =>
        { Vertex.lerp (g.vertices.getD p.1 (Vertex.from_ndarray ⟨0, 0, 0⟩))
            (g.vertices.getD p.2 (Vertex.from_ndarray ⟨0, 0, 0⟩)) t with
          color := g.color })

/-- `Camera.DOF` (renderer.py line 23). -/
def Camera.DOF : ℚ := 25

/-- `Camera.MAX_DEPTH` (renderer.py line 24). -/
def Camera.MAX_DEPTH : ℚ := 1000

/-- `Camera.OUT_OF_SCREEN_VTX = Vertex(0, 0, MAX_DEPTH+1)`
(renderer.py line 25); the color tag takes its default value 0. -/
def Camera.OUT_OF_SCREEN_VTX : Vertex ℚ :=
  ⟨⟨0, 0, Camera.MAX_DEPTH + 1⟩, 0⟩

/-- `Camera.ILLUM_CHAR` (renderer.py line 28), as a character list. -/
def Camera.ILLUM_CHAR : List Char :=
  String.toList " .,-~:;=!*#$@"

/-- Python string indexing `s[i]` with negative-index wraparound:
`s[i]` is `s[i]` for `0 <= i < len(s)`, `s[len(s)+i]` for
`-len(s) <= i < 0`, and raises `IndexError` (here: `none`) otherwise. -/
def pythonGet (s : List Char) (i : ℤ) : Option Char :=
  if 0 ≤ i then s[i.toNat]?
  else if 0 ≤ (s.length : ℤ) + i then s[((s.length : ℤ) + i).toNat]?
  else none

/-- `Camera.getIllum` (renderer.py lines 33-39):
`idx = ceil((depth / MAX_DEPTH) * len(ILLUM_CHAR)); return ILLUM_CHAR[-idx]`.
A result of `none` models the Python `IndexError`. -/
def Camera.getIllum (depth : ℚ) : Option Char :=
  pythonGet Camera.ILLUM_CHAR
    (-⌈depth / Camera.MAX_DEPTH * (Camera.ILLUM_CHAR.length : ℚ)⌉)

/-- `class Camera` of renderer.py: the camera position (the class
constants are modelled as the separate definitions above). -/
structure Camera where
  pos : Vertex ℚ

/-- `Camera.project` (renderer.py lines 42-58). -/
def Camera.project (cam : Camera) (vtx : Vertex ℚ) : Vertex ℚ :=
  let depth := vtx.v.z - cam.pos.v.z
  let color := vtx.color
  if depth ≤ 0 then Camera.OUT_OF_SCREEN_VTX
  else
    let ratio := Camera.DOF / (depth + Camera.DOF)
    ⟨⟨ratio * vtx.v.x, ratio * vtx.v.y, depth⟩, color⟩

/-- The two frame buffers of `Scene` (renderer.py lines 63-64, 82-83):
a row-major H x W depth grid and a parallel H x W color grid. -/
structure SceneState where
  depth_buffer : List (List ℚ)
  color_buffer : List (List ℤ)
deriving DecidableEq

/-- The list comprehension `[[c for x in range(W)] for y in range(H)]`. -/
def buildGrid (H W : ℕ) (c : α) : List (List α) :=
  (List.range H).map fun _ => (List.range W).map fun _ => c

/-- Buffer initialisation in `Scene.__init__` (renderer.py lines 82-83):
depth cells to the unset sentinel `-1`, color cells to the pair index 1. -/
def Scene.initBuffers (H W : ℕ) : SceneState :=
  ⟨buildGrid H W (-1), buildGrid H W 1⟩

/-- The buffer reset at the start of `Scene.render` (renderer.py line 89):
only `depth_buffer` is rebuilt; `color_buffer` is left as it was. -/
def Scene.renderReset (H W : ℕ) (s : SceneState) : SceneState :=
  { s with depth_buffer := buildGrid H W (-1) }

/-- The per-cell depth test of `Scene.render` (renderer.py lines 102-104):
overwrite the (depth, color) cell when the new depth is strictly smaller
than the stored one or the cell still holds the unset sentinel `-1`. -/
def depthTestCell (cell : ℚ × ℤ) (depth : ℚ) (color : ℤ) : ℚ × ℤ :=
  if depth < cell.1 ∨ cell.1 = -1 then (depth, color) else cell

/-- The per-point body of the rasterization loop in `Scene.render`
(renderer.py lines 93-104): project the point, compute the pixel as
`floor(coord + size // 2)`, drop it if outside `[0, W) x [0, H)`, and
otherwise run the depth test on the addressed cell. -/
def Scene.rasterPoint (W H : ℕ) (cam : Camera) (s : SceneState)
    (coord0 : Vertex ℚ) : SceneState :=
  let coord := cam.project coord0
  let x : ℤ := ⌊coord.v.x + ((W / 2 : ℕ) : ℚ)⌋
  let y : ℤ := ⌊coord.v.y + ((H / 2 : ℕ) : ℚ)⌋
  let depth := coord.v.z
  if x < 0 ∨ y < 0 ∨ (W : ℤ) ≤ x ∨ (H : ℤ) ≤ y then s
  else
    let yi := y.toNat
    let xi := x.toNat
    if depth < (s.depth_buffer.getD yi []).getD xi 0 ∨
        (s.depth_buffer.getD yi []).getD xi 0 = -1 then
      { depth_buffer :=
          s.depth_buffer.set yi ((s.depth_buffer.getD yi []).set xi depth),
        color_buffer :=
          s.color_buffer.set yi ((s.color_buffer.getD yi []).set xi coord.color) }
    else s

/-- Specification-side helper: the pairs `(a, b)` with fixed first
component `a` and `a < b < n`, in increasing order of `b`.  Used to
characterise the `pairs` list built by `generate_edges`. -/
def rowPairs (n a : ℕ) : List (ℕ × ℕ) :=
  ((List.range n).filter fun b => decide (a < b)).map fun b => (a, b)

/-- Specification-side helper: all pairs `(a, b)` with `a < m` and
`a < b < n`, in lexicographic order. -/
def pairsBelow (n : ℕ) : ℕ → List (ℕ × ℕ)
  | 0 => []
  | m + 1 => pairsBelow n m ++ rowPairs n m

/-- First vertex of the spec's end-to-end `generate_edges` example. -/
def exVertex0 : Vertex ℚ := ⟨⟨-10, 0, 3⟩, 0⟩

/-- Second vertex of the spec's end-to-end `generate_edges` example. -/
def exVertex1 : Vertex ℚ := ⟨⟨10, -10, 20⟩, 0⟩

/-- Third vertex of the spec's end-to-end `generate_edges` example. -/
def exVertex2 : Vertex ℚ := ⟨⟨10, 10, 20⟩, 0⟩

/-- The 3-vertex geometry `Geometry([(-10,0,3), (10,-10,20), (10,10,20)])`
of the spec's end-to-end example (default origin: first vertex; default
color 0). -/
def exTriangle : Geometry ℚ := ⟨[exVertex0, exVertex1, exVertex2], exVertex0, 0⟩

theorem rowPairs_mem (n a : ℕ) (p : ℕ × ℕ) :
    p ∈ rowPairs n a ↔ p.1 = a ∧ a < p.2 ∧ p.2 < n := by
  obtain ⟨u, w⟩ := p
  simp only [rowPairs, List.mem_map, List.mem_filter, List.mem_range,
    decide_eq_true_eq, Prod.mk.injEq]
  constructor
  · rintro ⟨b, ⟨hbn, hab⟩, hau, hbw⟩
    exact ⟨hau.symm, hbw ▸ hab, hbw ▸ hbn⟩
  · rintro ⟨hua, haw, hwn⟩
    exact ⟨w, ⟨hwn, haw⟩, hua.symm, rfl⟩

theorem pairsBelow_mem (n m : ℕ) (p : ℕ × ℕ) :
    p ∈ pairsBelow n m ↔ p.1 < m ∧ p.1 < p.2 ∧ p.2 < n := by
  induction m with
  | zero => simp [pairsBelow]
  | succ m ih =>
    simp only [pairsBelow, List.mem_append, ih, rowPairs_mem]
    omega

theorem inner_loop (n i : ℕ) (hi : i < n) :
    ∀ (js S : List ℕ), js.Nodup → (∀ j ∈ js, j ∉ S) →
      js.foldl (pairStep i) (pairsBelow n i ++ S.map fun b => (i, b)) =
      pairsBelow n i ++
        ((S ++ js.filter fun j => decide (i < j)).map fun b => (i, b)) := by
  intro js
  induction js with
  | nil => intro S _ _; simp
  | cons j js ih =>
    intro S hnd hdisj
    have hjS : j ∉ S := hdisj j (List.mem_cons_self j js)
    have hndtail : js.Nodup := (List.nodup_cons.mp hnd).2
    have hjnotjs : j ∉ js := (List.nodup_cons.mp hnd).1
    rw [List.foldl_cons]
    rcases lt_trichotomy j i with hj | hj | hj
    · have hskip : pairStep i (pairsBelow n i ++ S.map fun b => (i, b)) j
          = pairsBelow n i ++ S.map fun b => (i, b) := by
        simp only [pairStep]
        rw [if_pos]
        refine Or.inr (Or.inr ?_)
        rw [List.mem_append]
        exact Or.inl ((pairsBelow_mem n i (j, i)).mpr ⟨hj, hj, hi⟩)
      rw [hskip, ih S hndtail fun a ha => hdisj a (List.mem_cons_of_mem j ha)]
      have hfil : List.filter (fun a => decide (i < a)) (j :: js)
          = List.filter (fun a => decide (i < a)) js := by
        rw [List.filter_cons]
        simp [Nat.not_lt.mpr (le_of_lt hj)]
      rw [hfil]
    · have hskip : pairStep i (pairsBelow n i ++ S.map fun b => (i, b)) j
          = pairsBelow n i ++ S.map fun b => (i, b) := by
        simp only [pairStep]
        rw [if_pos (Or.inl hj.symm)]
      rw [hskip, ih S hndtail fun a ha => hdisj a (List.mem_cons_of_mem j ha)]
      have hfil : List.filter (fun a => decide (i < a)) (j :: js)
          = List.filter (fun a => decide (i < a)) js := by
        rw [List.filter_cons]
        simp [hj]
      rw [hfil]
    · have hnm1 : (i, j) ∉ pairsBelow n i ++ S.map fun b => (i, b) := by
        rw [List.mem_append]
        rintro (h | h)
        · have := (pairsBelow_mem n i (i, j)).mp h
          omega
        · obtain ⟨b, hb, heq⟩ := List.mem_map.mp h
          have hbj : b = j := (Prod.mk.injEq _ _ _ _).mp heq |>.2
          exact hjS (hbj ▸ hb)
      have hnm2 : (j, i) ∉ pairsBelow n i ++ S.map fun b => (i, b) := by
        rw [List.mem_append]
        rintro (h | h)
        · have := (pairsBelow_mem n i (j, i)).mp h
          omega
        · obtain ⟨b, hb, heq⟩ := List.mem_map.mp h
          have : i = j := (Prod.mk.injEq _ _ _ _).mp heq |>.1
          omega
      have hadd : pairStep i (pairsBelow n i ++ S.map fun b => (i, b)) j
          = (pairsBelow n i ++ S.map fun b => (i, b)) ++ [(i, j)] := by
        simp only [pairStep]
        rw [if_neg]
        rintro (h | h | h)
        · omega
        · exact hnm1 h
        · exact hnm2 h
      have hre : (pairsBelow n i ++ S.map fun b => (i, b)) ++ [(i, j)]
          = pairsBelow n i ++ (S ++ [j]).map fun b => (i, b) := by
        simp
      rw [hadd, hre]
      have hdisj' : ∀ a ∈ js, a ∉ S ++ [j] := by
        intro a ha
        rw [List.mem_append, List.mem_singleton]
        rintro (h | h)
        · exact hdisj a (List.mem_cons_of_mem j ha) h
        · exact hjnotjs (h ▸ ha)
      rw [ih (S ++ [j]) hndtail hdisj']
      have hfil : List.filter (fun a => decide (i < a)) (j :: js)
          = j :: List.filter (fun a => decide (i < a)) js := by
        rw [List.filter_cons]
        simp [hj]
      rw [hfil]
      simp

theorem genPairs_core (n : ℕ) :
    ∀ m, m ≤ n →
      (List.range m).foldl
        (fun acc i => (List.range n).foldl (pairStep i) acc) [] =
      pairsBelow n m := by
  intro m
  induction m with
  | zero => intro _; simp [pairsBelow]
  | succ m ih =>
    intro hm
    rw [List.range_succ, List.foldl_append, ih (by omega)]
    simp only [List.foldl_cons, List.foldl_nil]
    have h := inner_loop n m (by omega) (List.range n) [] (List.nodup_range n)
      (by simp)
    simp only [List.map_nil, List.append_nil, List.nil_append] at h
    rw [h]
    rfl

theorem genPairs_eq_pairsBelow (n : ℕ) : genPairs n = pairsBelow n n :=
  genPairs_core n n le_rfl

theorem genPairs_mem (n : ℕ) (p : ℕ × ℕ) :
    p ∈ genPairs n ↔ p.1 < p.2 ∧ p.2 < n := by
  rw [genPairs_eq_pairsBelow, pairsBelow_mem]
  omega

theorem filter_range_length (a : ℕ) :
    ∀ n, ((List.range n).filter fun b => decide (a < b)).length = n - (a + 1) := by
  intro n
  induction n with
  | zero => simp
  | succ n ih =>
    rw [List.range_succ, List.filter_append, List.length_append, ih,
      List.filter_cons]
    by_cases h : a < n
    · simp [h]
      omega
    · simp [h]
      omega

theorem pairsBelow_length (n : ℕ) :
    ∀ m, (pairsBelow n m).length
      = ((List.range m).map fun a => n - (a + 1)).sum := by
  intro m
  induction m with
  | zero => simp [pairsBelow]
  | succ m ih =>
    rw [List.range_succ, List.map_append, List.sum_append]
    simp only [pairsBelow, List.length_append, ih, rowPairs, List.length_map,
      filter_range_length, List.map_cons, List.map_nil, List.sum_cons,
      List.sum_nil]
    omega

theorem sum_map_succ_sub (n : ℕ) :
    ∀ l : List ℕ, (∀ a ∈ l, a < n) →
      (l.map fun a => n + 1 - (a + 1)).sum
        = (l.map fun a => n - (a + 1)).sum + l.length := by
  intro l
  induction l with
  | nil => intro _; simp
  | cons a l ih =>
    intro h
    have ha : a < n := h a (List.mem_cons_self a l)
    simp only [List.map_cons, List.sum_cons, List.length_cons]
    rw [ih fun b hb => h b (List.mem_cons_of_mem a hb)]
    omega

theorem range_sub_sum :
    ∀ n : ℕ, ((List.range n).map fun a => n - (a + 1)).sum = n.choose 2 := by
  intro n
  induction n with
  | zero => simp
  | succ n ih =>
    rw [List.range_succ, List.map_append, List.sum_append]
    simp only [List.map_cons, List.map_nil, List.sum_cons, List.sum_nil]
    rw [sum_map_succ_sub n (List.range n) fun a ha => List.mem_range.mp ha, ih]
    rw [Nat.choose_succ_succ n 1, Nat.choose_one_right]
    simp [List.length_range]
    omega

theorem genPairs_length (n : ℕ) : (genPairs n).length = n.choose 2 := by
  rw [genPairs_eq_pairsBelow, pairsBelow_length, range_sub_sum]

theorem lerpTs_one (h : (0 : ℚ) < 1) : lerpTs 1 h 0 = [0, 1] := by
  rw [lerpTs, dif_pos (by norm_num : (0 : ℚ) ≤ 1)]
  rw [lerpTs, dif_pos (by norm_num : (0 : ℚ) + 1 ≤ 1)]
  rw [lerpTs, dif_neg (by norm_num : ¬((0 : ℚ) + 1 + 1 ≤ 1))]
  norm_num

theorem generate_edges_example (h : (0 : ℚ) < 1) :
    exTriangle.generate_edges 1 h =
      .ok [exVertex1, exVertex0, exVertex2, exVertex0, exVertex2, exVertex1] := by
  rw [Geometry.generate_edges, if_neg (by decide)]
  rw [show exTriangle.vertices.length = 3 from rfl]
  rw [show genPairs 3 = [(0, 1), (0, 2), (1, 2)] from rfl]
  rw [lerpTs_one]
  simp only [List.flatMap_cons, List.flatMap_nil, List.map_cons, List.map_nil,
    List.append_nil, List.cons_append, List.nil_append]
  norm_num [exTriangle, exVertex0, exVertex1, exVertex2, Vertex.lerp,
    Vertex.from_ndarray, Vec3.smul, Vec3.add]

theorem buildGrid_eq_replicate (H W : ℕ) (c : α) :
    buildGrid H W c = List.replicate H (List.replicate W c) := by
  simp [buildGrid, List.map_const']

/-- C3, counterexample: `interval = 0` lies outside `(0, 1]`, yet neither
the `generate_edges` guard nor the `generate_surfaces` guard rejects it
(the Python condition is `interval < 0 or interval > 1`). -/
theorem c3_counterexample_interval_zero_accepted :
    edgesIntervalCheck 0 = false ∧ surfacesIntervalCheck 0 = false ∧
      (0 : ℚ) ∉ Set.Ioc (0 : ℚ) 1 := by
  refine ⟨by decide, by decide, ?_⟩
  simp [Set.mem_Ioc]

/-- C3, amended: `generate_edges` and `generate_surfaces` raise their
validation error if and only if the interval is outside the closed
interval `[0, 1]`; in particular `interval = 0` is accepted by the guard
(after which the Python sampling loop `while t <= 1: t += 0` never
terminates). -/
theorem c3_interval_guard_iff (interval : ℚ) :
    (edgesIntervalCheck interval = true ↔ ¬(0 ≤ interval ∧ interval ≤ 1)) ∧
    (surfacesIntervalCheck interval = true ↔ ¬(0 ≤ interval ∧ interval ≤ 1)) := by
  constructor <;>
    · simp only [edgesIntervalCheck, surfacesIntervalCheck, Bool.or_eq_true,
        decide_eq_true_eq, not_and_or, not_le, gt_iff_lt]

/-- C4: the depth test of `Scene.render` (lines 101-104) overwrites a
(depth, color) cell only when the cell is unset (`-1`) or the new depth is
strictly smaller; since every projected point carries a positive depth,
two points with depths `d1 < d2` hitting the same cell leave the cell
holding the `d1` data in either processing order, so processing order
never wins ties. -/
theorem c4_depth_test_nearer_wins :
    (∀ (cam : Camera) (vtx : Vertex ℚ), 0 < (cam.project vtx).v.z) ∧
    (∀ (cell : ℚ × ℤ) (d : ℚ) (c : ℤ),
      depthTestCell cell d c ≠ cell → (d < cell.1 ∨ cell.1 = -1)) ∧
    (∀ (d1 d2 : ℚ) (c1 c2 c0 : ℤ), 0 < d1 → d1 < d2 →
      depthTestCell (depthTestCell (-1, c0) d1 c1) d2 c2 = (d1, c1) ∧
      depthTestCell (depthTestCell (-1, c0) d2 c2) d1 c1 = (d1, c1)) := by
  refine ⟨?_, ?_, ?_⟩
  · intro cam vtx
    simp only [Camera.project]
    split
    · norm_num [Camera.OUT_OF_SCREEN_VTX, Camera.MAX_DEPTH]
    · next hdep => exact lt_of_not_ge fun hle => hdep (by linarith)
  · intro cell d c hne
    by_cases h : d < cell.1 ∨ cell.1 = -1
    · exact h
    · exact absurd (by simp [depthTestCell, h]) hne
  · intro d1 d2 c1 c2 c0 h0 h12
    have hd1 : d1 ≠ -1 := by intro h; rw [h] at h0; norm_num at h0
    have hfirst : depthTestCell (-1, c0) d1 c1 = (d1, c1) := by
      simp [depthTestCell]
    have hsecond : depthTestCell (-1, c0) d2 c2 = (d2, c2) := by
      simp [depthTestCell]
    constructor
    · rw [hfirst]
      simp [depthTestCell, not_lt.mpr (le_of_lt h12), hd1]
    · rw [hsecond]
      simp [depthTestCell, h12]

/-- C4, witness: the depth test evaluated at depths 3 < 7 in both orders. -/
theorem c4_witness :
    (0 : ℚ) < 3 ∧ (3 : ℚ) < 7 ∧
    depthTestCell (depthTestCell (-1, 9) 3 5) 7 6 = (3, 5) ∧
    depthTestCell (depthTestCell (-1, 9) 7 6) 3 5 = (3, 5) :=
  ⟨by decide, by decide,
    (c4_depth_test_nearer_wins.2.2 3 7 5 6 9 (by decide) (by decide)).1,
    (c4_depth_test_nearer_wins.2.2 3 7 5 6 9 (by decide) (by decide)).2⟩

/-- C5, counterexample: `Scene.render` rebuilds only `depth_buffer`
(renderer.py line 89); a color cell holding 42 from a previous frame
survives the per-frame reset, so the color grid is not "likewise
reallocated or reset". -/
theorem c5_counterexample_color_survives :
    (Scene.renderReset 1 1 ⟨[[7]], [[42]]⟩).color_buffer = [[42]] ∧
    (Scene.renderReset 1 1 ⟨[[7]], [[42]]⟩).color_buffer ≠
      (Scene.initBuffers 1 1).color_buffer := by
  constructor
  · rfl
  · intro h
    have : ([[42]] : List (List ℤ)) = [[1]] := by
      simpa [Scene.renderReset, Scene.initBuffers, buildGrid] using h
    simp at this

/-- C5, amended: at the start of every `Scene.render` call the depth grid
is fully rebuilt with every cell set to the unset sentinel `-1`, but the
color grid is not touched by the reset: it keeps exactly the contents it
had before the call (it is allocated only once, in `Scene.__init__`). -/
theorem c5_render_resets_only_depth :
    ∀ (H W : ℕ) (s : SceneState),
      (Scene.renderReset H W s).depth_buffer
        = List.replicate H (List.replicate W (-1)) ∧
      (((Scene.renderReset H W s).depth_buffer.all
          fun row => row.all fun d => d == -1) = true) ∧
      (Scene.renderReset H W s).color_buffer = s.color_buffer := by
  intro H W s
  refine ⟨buildGrid_eq_replicate H W (-1), ?_, rfl⟩
  simp [Scene.renderReset, buildGrid, List.all_eq_true]

/-- C7: `Vertex.lerp` computes `v0*t + v1*(1-t)` on positions, so `t = 0`
returns `v1`'s position and `t = 1` returns `v0`'s position (the t-weight
applies to `v0`, the reverse of the conventional form).  The color tag of
the result is always the `from_ndarray` default 0 (see C10). -/
theorem c7_lerp_convention :
    ∀ (v0 v1 : Vertex ℚ) (t : ℚ),
      (Vertex.lerp v0 v1 t).v = (v0.v.smul t).add (v1.v.smul (1 - t)) ∧
      (Vertex.lerp v0 v1 0).v = v1.v ∧
      (Vertex.lerp v0 v1 1).v = v0.v := by
  intro v0 v1 t
  refine ⟨rfl, ?_, ?_⟩ <;>
    simp [Vertex.lerp, Vertex.from_ndarray, Vec3.smul, Vec3.add]

/-- C9: rotating the pivot about itself returns the pivot's position, for
every pivot and every angle triple: `np.matmul(R, pivot.v - pivot.v)` is
the zero vector for any rotation matrix, and adding back `pivot.v` gives
the pivot.  (The color tag of the result is the `from_ndarray` default 0,
see C10; Python `==` on `Vertex` has no value semantics, so equality is
read on positions.) -/
theorem c9_pivot_is_fixed_point :
    ∀ (pivot : Vertex ℝ) (alpha beta gamma : ℝ),
      (Vertex.rotate_about_origin pivot pivot alpha beta gamma).v = pivot.v := by
  intro p alpha beta gamma
  simp [Vertex.rotate_about_origin, Vertex.from_ndarray, matVec, rotationRows,
    Vec3.sub, Vec3.add, Vec3.dot]

/-- C10: every vertex produced by `Vertex.rotate`,
`Vertex.rotate_about_origin`, `Vertex.lerp` and `Vertex.lerp_gen` goes
through `Vertex.from_ndarray`, which never carries a color over, so its
color tag is 0 regardless of the input colors; consequently
`Geometry.rotate` resets the color tag of every stored control vertex
to 0. -/
theorem c10_from_ndarray_resets_color :
    (∀ (vtx : Vertex ℝ) (alpha beta gamma : ℝ),
      (vtx.rotate alpha beta gamma).color = 0) ∧
    (∀ (vtx origin : Vertex ℝ) (alpha beta gamma : ℝ),
      (Vertex.rotate_about_origin vtx origin alpha beta gamma).color = 0) ∧
    (∀ (v0 v1 : Vertex ℚ) (t : ℚ), (Vertex.lerp v0 v1 t).color = 0) ∧
    (∀ (vertices : List (Vertex ℚ)) (coeffs : List ℚ),
      ((Vertex.lerp_gen vertices coeffs).toOption.all
        fun r => r.color == 0) = true) ∧
    (∀ (g : Geometry ℝ) (alpha beta gamma : ℝ),
      ((g.rotate alpha beta gamma).vertices.all
        fun vtx => vtx.color == 0) = true) := by
  refine ⟨fun _ _ _ _ => rfl, fun _ _ _ _ _ => rfl, fun _ _ _ => rfl, ?_, ?_⟩
  · intro vertices coeffs
    rw [Vertex.lerp_gen]
    split
    · rfl
    · split
      · rfl
      · rfl
  · intro g alpha beta gamma
    rw [List.all_eq_true]
    intro vtx hmem
    obtain ⟨w, _, hw⟩ := List.mem_map.mp hmem
    rw [← hw]
    rfl

/-- C8: the pair loop of `generate_edges` collects exactly the `C(n, 2)`
unordered index pairs (never both `(i, j)` and `(j, i)`), and on the
3-vertex example geometry with `interval = 1` it yields exactly 2 points
per edge (`t = 0` gives the second endpoint, `t = 1` the first, no
interior samples), 6 points total, each equal to one of the 3 input
vertices. -/
theorem c8_generate_edges_pairs :
    (∀ n : ℕ, 2 ≤ n →
      (genPairs n).length = n.choose 2 ∧
      ∀ p : ℕ × ℕ, p ∈ genPairs n → (p.2, p.1) ∉ genPairs n) ∧
    (∀ h : (0 : ℚ) < 1,
      exTriangle.generate_edges 1 h =
        .ok [exVertex1, exVertex0, exVertex2, exVertex0, exVertex2,
          exVertex1]) := by
  constructor
  · intro n _
    refine ⟨genPairs_length n, ?_⟩
    intro p hp hswap
    have h1 := (genPairs_mem n p).mp hp
    have h2 := (genPairs_mem n (p.2, p.1)).mp hswap
    simp only at h2
    omega
  · exact generate_edges_example

/-- C8, witness: the pair loop at `n = 3` and the example evaluation. -/
theorem c8_witness :
    (2 ≤ 3 ∧ (genPairs 3).length = Nat.choose 3 2) ∧
    ((0, 1) ∈ genPairs 3 ∧ (1, 0) ∉ genPairs 3) ∧
    exTriangle.generate_edges 1 (by decide) =
      .ok [exVertex1, exVertex0, exVertex2, exVertex0, exVertex2, exVertex1] :=
  ⟨⟨by decide, (c8_generate_edges_pairs.1 3 (by decide)).1⟩,
   ⟨by decide, (c8_generate_edges_pairs.1 3 (by decide)).2 (0, 1) (by decide)⟩,
   c8_generate_edges_pairs.2 (by decide)⟩

/-- C6: `Camera.project` maps a vertex with positive depth
`d = v.z - cam.z` to `(DOF/(d+DOF) * v.x, DOF/(d+DOF) * v.y, d)` carrying
the original color tag, returns the sentinel whenever `d <= 0` regardless
of `v.x`, `v.y`, and with the camera at the origin and `DOF = 25` a
vertex at `z = 25` projects with scale `1/2`. -/
theorem c6_project_formula :
    (∀ (cam : Camera) (vtx : Vertex ℚ),
      (0 < vtx.v.z - cam.pos.v.z →
        cam.project vtx =
          ⟨⟨Camera.DOF / ((vtx.v.z - cam.pos.v.z) + Camera.DOF) * vtx.v.x,
            Camera.DOF / ((vtx.v.z - cam.pos.v.z) + Camera.DOF) * vtx.v.y,
            vtx.v.z - cam.pos.v.z⟩, vtx.color⟩) ∧
      (vtx.v.z - cam.pos.v.z ≤ 0 → cam.project vtx = Camera.OUT_OF_SCREEN_VTX)) ∧
    (∀ (x y : ℚ) (c : ℤ),
      Camera.project ⟨⟨⟨0, 0, 0⟩, 0⟩⟩ ⟨⟨x, y, 25⟩, c⟩ =
        ⟨⟨(1 / 2) * x, (1 / 2) * y, 25⟩, c⟩) := by
  constructor
  · intro cam vtx
    constructor
    · intro hpos
      rw [Camera.project, if_neg (not_le.mpr hpos)]
    · intro hle
      rw [Camera.project, if_pos hle]
  · intro x y c
    rw [Camera.project]
    norm_num [Camera.DOF]

/-- C6, witness: projection evaluated at a vertex of positive depth 26 and
at a vertex behind the camera. -/
theorem c6_witness :
    ((0 : ℚ) < 26 - 0 ∧
      Camera.project ⟨⟨⟨0, 0, 0⟩, 0⟩⟩ ⟨⟨10, 20, 26⟩, 3⟩ =
        ⟨⟨Camera.DOF / ((26 - 0) + Camera.DOF) * 10,
          Camera.DOF / ((26 - 0) + Camera.DOF) * 20, 26 - 0⟩, 3⟩) ∧
    ((-4 : ℚ) - 0 ≤ 0 ∧
      Camera.project ⟨⟨⟨0, 0, 0⟩, 0⟩⟩ ⟨⟨9, 9, -4⟩, 5⟩ =
        Camera.OUT_OF_SCREEN_VTX) :=
  ⟨⟨by norm_num, (c6_project_formula.1 ⟨⟨⟨0, 0, 0⟩, 0⟩⟩ ⟨⟨10, 20, 26⟩, 3⟩).1
      (by norm_num)⟩,
   ⟨by norm_num, (c6_project_formula.1 ⟨⟨⟨0, 0, 0⟩, 0⟩⟩ ⟨⟨9, 9, -4⟩, 5⟩).2
      (by norm_num)⟩⟩

/-- C2: at the out-of-screen sentinel depth `MAX_DEPTH + 1` the index
`idx = ceil(depth/MAX_DEPTH * 13)` is 14, and `ILLUM_CHAR[-14]` on the
13-character ramp is an out-of-range access (`IndexError`, modelled as
`none`): `getIllum` performs no clamping.  At the unset sentinel `-1` the
index is 0 and the access is in range (the first ramp character). -/
theorem c2_getIllum_out_of_range_at_sentinel :
    Camera.ILLUM_CHAR.length = 13 ∧
    ⌈(Camera.MAX_DEPTH + 1) / Camera.MAX_DEPTH * (Camera.ILLUM_CHAR.length : ℚ)⌉
      = 14 ∧
    Camera.getIllum (Camera.MAX_DEPTH + 1) = none ∧
    Camera.getIllum (-1) = some ' ' := by
  have hlen : Camera.ILLUM_CHAR.length = 13 := rfl
  have hceil1 :
      ⌈(Camera.MAX_DEPTH + 1) / Camera.MAX_DEPTH * (Camera.ILLUM_CHAR.length : ℚ)⌉
        = 14 := by
    rw [hlen, Camera.MAX_DEPTH, Int.ceil_eq_iff]
    norm_num
  have hceil2 :
      ⌈(-1 : ℚ) / Camera.MAX_DEPTH * (Camera.ILLUM_CHAR.length : ℚ)⌉ = 0 := by
    rw [hlen, Camera.MAX_DEPTH, Int.ceil_eq_iff]
    norm_num
  refine ⟨hlen, hceil1, ?_, ?_⟩
  · rw [Camera.getIllum, hceil1]
    decide
  · rw [Camera.getIllum, hceil2]
    decide

/-- C1: evaluated at the failing input (camera at the origin, vertex
`(5, 5, -3)` behind the camera, a fresh 2x2 frame), `project` returns the
out-of-screen sentinel, whose position `(0, 0)` maps to the in-bounds
pixel `(W//2, H//2) = (1, 1)`; the bounds check does NOT discard it, and
the depth cell is written with `MAX_DEPTH + 1 = 1001` and the color cell
with the sentinel's color tag 0. -/
theorem c1_sentinel_point_is_rasterized :
    Camera.project ⟨⟨⟨0, 0, 0⟩, 0⟩⟩ ⟨⟨5, 5, -3⟩, 2⟩ = Camera.OUT_OF_SCREEN_VTX ∧
    (Scene.initBuffers 2 2).depth_buffer = [[-1, -1], [-1, -1]] ∧
    (Scene.initBuffers 2 2).color_buffer = [[1, 1], [1, 1]] ∧
    (Scene.rasterPoint 2 2 ⟨⟨⟨0, 0, 0⟩, 0⟩⟩ (Scene.initBuffers 2 2)
        ⟨⟨5, 5, -3⟩, 2⟩).depth_buffer = [[-1, -1], [-1, 1001]] ∧
    (Scene.rasterPoint 2 2 ⟨⟨⟨0, 0, 0⟩, 0⟩⟩ (Scene.initBuffers 2 2)
        ⟨⟨5, 5, -3⟩, 2⟩).color_buffer = [[1, 1], [1, 0]] := by
  have hproj : Camera.project ⟨⟨⟨0, 0, 0⟩, 0⟩⟩ ⟨⟨5, 5, -3⟩, 2⟩
      = Camera.OUT_OF_SCREEN_VTX := by
    rw [Camera.project]
    norm_num
  have hgrid : Scene.initBuffers 2 2 = ⟨[[-1, -1], [-1, -1]], [[1, 1], [1, 1]]⟩ := by
    rfl
  refine ⟨hproj, by rw [hgrid], by rw [hgrid], ?_, ?_⟩ <;>
    · rw [Scene.rasterPoint, hgrid]
      rw [hproj]
      norm_num [Camera.OUT_OF_SCREEN_VTX, Camera.MAX_DEPTH, List.getD]
